import Mathlib

/-!
Verification of the clause-analysis service in `index.py`.

The development shallowly embeds the three Python functions of the source:
`extract_json` (tolerant JSON extraction from a model reply),
`analyze_with_mistral` (the analysis pipeline around the provider call), and
`analyze_clauses` (the HTTP request handler).  Python values are modelled by
the inductive type `PyValue`; Python exceptions by `PyErr` together with
`Except`; the network world (environment credential and the outcome of the
single outbound HTTP call) is an explicit parameter of the pipeline.

Modelling notes, fixed throughout:
* machine strings are Lean `String`/`List Char`; dict keys are strings (a
  Python dict literal with a non-string key is treated as a parse failure by
  the permissive literal parser, which no claim exercises);
* `json.loads` is modelled by a strict JSON parser (`json_loads_chars`);
  floats are carried opaquely as their raw token;
* `ast.literal_eval` is modelled by a permissive literal parser
  (`literal_eval_chars`) covering the grammar the extractor can reach:
  single- or double-quoted strings, signed integers, floats, True/False/None,
  lists, tuples and string-keyed dicts with optional trailing commas
  (set literals are unreachable in `extract_json`: any text containing the
  braces a set needs is routed to the strict-JSON branch first);
* whitespace for `str.strip` is the ASCII whitespace set.
-/

inductive PyValue where
  | none
  | bool (b : Bool)
  | int (n : Int)
  | float (raw : String)
  | str (s : String)
  | list (xs : List PyValue)
  | tuple (xs : List PyValue)
  | dict (kvs : List (String × PyValue))

inductive PyErr where
  | requestError (msg : String)
  | jsonDecodeError (msg : String)
  | valueError (msg : String)
  | typeError (msg : String)
  | keyError (msg : String)
  | indexError (msg : String)
  | attributeError (msg : String)

/-- `str(e)` for a modelled exception: the carried message. -/
def PyErr.message : PyErr → String
  | .requestError m => m
  | .jsonDecodeError m => m
  | .valueError m => m
  | .typeError m => m
  | .keyError m => m
  | .indexError m => m
  | .attributeError m => m

/-- Python type name of a value, used in modelled TypeError messages. -/
def PyValue.typeName : PyValue → String
  | .none => "NoneType"
  | .bool _ => "bool"
  | .int _ => "int"
  | .float _ => "float"
  | .str _ => "str"
  | .list _ => "list"
  | .tuple _ => "tuple"
  | .dict _ => "dict"

/-- Python truthiness: `bool(v)` is false exactly on these values. -/
def py_falsy : PyValue → Bool
  | .none => true
  | .bool b => !b
  | .int n => n == 0
  | .float _ => false
  | .str s => s == ""
  | .list xs => xs.isEmpty
  | .tuple xs => xs.isEmpty
  | .dict kvs => kvs.isEmpty

def PyValue.isStr : PyValue → Bool
  | .str _ => true
  | _ => false

def PyValue.isDict : PyValue → Bool
  | .dict _ => true
  | _ => false

/-- First-match association-list lookup (parsed dicts carry unique keys). -/
def dictLookup (kvs : List (String × PyValue)) (k : String) : Option PyValue :=
  match kvs with
  | [] => Option.none
  | (k1, v) :: rest => if k1 == k then Option.some v else dictLookup rest k

def dictHasKey (kvs : List (String × PyValue)) (k : String) : Bool :=
  (dictLookup kvs k).isSome

/-- Insert-or-replace, so a later duplicate key wins as in Python dicts. -/
def assocSet (kvs : List (String × PyValue)) (k : String) (v : PyValue) :
    List (String × PyValue) :=
  match kvs with
  | [] => [(k, v)]
  | (k1, v1) :: rest =>
      if k1 == k then (k1, v) :: rest else (k1, v1) :: assocSet rest k v

mutual

/-- Structural equality of modelled Python values (`==`). -/
def pyEq : PyValue → PyValue → Bool
  | .none, .none => true
  | .bool a, .bool b => a == b
  | .int a, .int b => a == b
  | .float a, .float b => a == b
  | .str a, .str b => a == b
  | .list a, .list b => pyEqList a b
  | .tuple a, .tuple b => pyEqList a b
  | .dict a, .dict b => pyEqDict a b
  | _, _ => false

def pyEqList : List PyValue → List PyValue → Bool
  | [], [] => true
  | a :: as1, b :: bs1 => pyEq a b && pyEqList as1 bs1
  | _, _ => false

def pyEqDict : List (String × PyValue) → List (String × PyValue) → Bool
  | [], [] => true
  | (k1, a) :: as1, (k2, b) :: bs1 => k1 == k2 && pyEq a b && pyEqDict as1 bs1
  | _, _ => false

end

/-- Character-list prefix test. -/
def listStartsWith : List Char → List Char → Bool
  | [], _ => true
  | _ :: _, [] => false
  | a :: as1, b :: bs1 => a == b && listStartsWith as1 bs1

/-- Character-list substring test (Python `sub in s` on strings). -/
def listContainsSub (p : List Char) (l : List Char) : Bool :=
  match l with
  | [] => p.isEmpty
  | _ :: rest => listStartsWith p l || listContainsSub p rest

/-- String prefix test over the character lists. -/
def strStartsWith (p s : String) : Bool :=
  listStartsWith p.data s.data

/-- Python membership test `k in v`; raises on non-containers. -/
def py_contains (k : PyValue) (v : PyValue) : Except PyErr Bool :=
  match v with
  | .dict kvs =>
      match k with
      | .str s => Except.ok (dictHasKey kvs s)
      | _ => Except.ok false
  | .list xs => Except.ok (xs.any (pyEq k))
  | .tuple xs => Except.ok (xs.any (pyEq k))
  | .str s =>
      match k with
      | .str sub => Except.ok (listContainsSub sub.data s.data)
      | _ => Except.error (.typeError ("in <string> requires string as left operand, not " ++ k.typeName))
  | _ => Except.error (.typeError ("argument of type " ++ v.typeName ++ " is not iterable"))

/-- Sequence indexing with Python semantics: a negative index counts from the
end; anything out of range is an `IndexError` with message `msg`. -/
def pyIndex (xs : List PyValue) (i : Int) (msg : String) : Except PyErr PyValue :=
  if i < 0 then
    if i + xs.length < 0 then Except.error (.indexError msg)
    else
      match xs.get? (i + xs.length).toNat with
      | Option.some r => Except.ok r
      | Option.none => Except.error (.indexError msg)
  else
    match xs.get? i.toNat with
    | Option.some r => Except.ok r
    | Option.none => Except.error (.indexError msg)

/-- Python subscription `v[k]`, for the key shapes the source can reach. -/
def py_subscript (v : PyValue) (k : PyValue) : Except PyErr PyValue :=
  match v with
  | .dict kvs =>
      match k with
      | .str s =>
          match dictLookup kvs s with
          | Option.some r => Except.ok r
          | Option.none => Except.error (.keyError s)
      | _ => Except.error (.keyError "non-string key")
  | .list xs =>
      match k with
      | .int i => pyIndex xs i "list index out of range"
      | _ => Except.error (.typeError "list indices must be integers or slices")
  | .tuple xs =>
      match k with
      | .int i => pyIndex xs i "tuple index out of range"
      | _ => Except.error (.typeError "tuple indices must be integers or slices")
  | .str _ =>
      match k with
      | .int _ => Except.error (.typeError "string index model not needed")
      | _ => Except.error (.typeError "string indices must be integers")
  | _ => Except.error (.typeError (v.typeName ++ " object is not subscriptable"))

/-- Python `v.get(k, default)`; only dicts have the attribute. -/
def py_get (v : PyValue) (k : String) (default : PyValue) : Except PyErr PyValue :=
  match v with
  | .dict kvs =>
      match dictLookup kvs k with
      | Option.some r => Except.ok r
      | Option.none => Except.ok default
  | _ => Except.error (.attributeError (v.typeName ++ " object has no attribute get"))

/-- ASCII whitespace recognised by `str.strip()`. -/
def isPySpace (c : Char) : Bool :=
  c == ' ' || c == '\t' || c == '\n' || c == '\r' || c == '\x0b' || c == '\x0c'

def pyStrip (cs : List Char) : List Char :=
  ((cs.dropWhile isPySpace).reverse.dropWhile isPySpace).reverse

def pyStripString (s : String) : String :=
  String.mk (pyStrip s.data)

/-! ### Strict JSON parsing (model of `json.loads`) -/

/-- Whitespace accepted between JSON tokens. -/
def isJsonWs (c : Char) : Bool :=
  c == ' ' || c == '\t' || c == '\n' || c == '\r'

def skipJsonWs (cs : List Char) : List Char :=
  cs.dropWhile isJsonWs

def hexDigitVal (c : Char) : Option Nat :=
  if '0' ≤ c ∧ c ≤ '9' then Option.some (c.toNat - 48)
  else if 'a' ≤ c ∧ c ≤ 'f' then Option.some (c.toNat - 87)
  else if 'A' ≤ c ∧ c ≤ 'F' then Option.some (c.toNat - 55)
  else Option.none

def digitsToNat (ds : List Char) : Nat :=
  ds.foldl (fun a c => a * 10 + (c.toNat - 48)) 0

/-- Body of a JSON string literal, after the opening quote.  Strict mode:
raw control characters below 0x20 are rejected. -/
def jsonStringAux (acc : List Char) : List Char → Option (List Char × List Char)
  | [] => Option.none
  | '"' :: rest => Option.some (acc.reverse, rest)
  | '\\' :: '"' :: rest => jsonStringAux ('"' :: acc) rest
  | '\\' :: '\\' :: rest => jsonStringAux ('\\' :: acc) rest
  | '\\' :: '/' :: rest => jsonStringAux ('/' :: acc) rest
  | '\\' :: 'b' :: rest => jsonStringAux ('\x08' :: acc) rest
  | '\\' :: 'f' :: rest => jsonStringAux ('\x0c' :: acc) rest
  | '\\' :: 'n' :: rest => jsonStringAux ('\n' :: acc) rest
  | '\\' :: 'r' :: rest => jsonStringAux ('\x0d' :: acc) rest
  | '\\' :: 't' :: rest => jsonStringAux ('\t' :: acc) rest
  | '\\' :: 'u' :: h1 :: h2 :: h3 :: h4 :: rest =>
      match hexDigitVal h1, hexDigitVal h2, hexDigitVal h3, hexDigitVal h4 with
      | Option.some a, Option.some b, Option.some c, Option.some d =>
          jsonStringAux (Char.ofNat (((a * 16 + b) * 16 + c) * 16 + d) :: acc) rest
      | _, _, _, _ => Option.none
  | '\\' :: _ => Option.none
  | c :: rest =>
      if c.toNat < 32 then Option.none else jsonStringAux (c :: acc) rest

/-- Optional fraction part `.[0-9]+`; returns the raw characters consumed. -/
def parseJsonFrac : List Char → Option (List Char × List Char)
  | '.' :: r =>
      let p := r.span Char.isDigit
      if p.1.isEmpty then Option.none else Option.some ('.' :: p.1, p.2)
  | cs => Option.some ([], cs)

/-- Optional exponent part; returns the raw characters consumed. -/
def parseJsonExp (cs : List Char) : Option (List Char × List Char) :=
  match cs with
  | e :: r =>
      if e == 'e' || e == 'E' then
        let sr : List Char × List Char :=
          match r with
          | '+' :: r2 => (['+'], r2)
          | '-' :: r2 => (['-'], r2)
          | _ => ([], r)
        let p := sr.2.span Char.isDigit
        if p.1.isEmpty then Option.none
        else Option.some (e :: sr.1 ++ p.1, p.2)
      else Option.some ([], cs)
  | [] => Option.some ([], [])

/-- JSON number token `-?(0|[1-9][0-9]*)(\.[0-9]+)?([eE][+-]?[0-9]+)?`.
Integers become `PyValue.int`; anything with a fraction or exponent is carried
opaquely as `PyValue.float` of its raw token. -/
def parseJsonNumber (cs : List Char) : Option (PyValue × List Char) :=
  let sgn : List Char × List Char :=
    match cs with
    | '-' :: rest => (['-'], rest)
    | _ => ([], cs)
  let p := sgn.2.span Char.isDigit
  if p.1.isEmpty then Option.none
  else if p.1.length > 1 && p.1.headD '0' == '0' then Option.none
  else
    match parseJsonFrac p.2 with
    | Option.none => Option.none
    | Option.some (frac, r1) =>
        match parseJsonExp r1 with
        | Option.none => Option.none
        | Option.some (ex, r2) =>
            if frac.isEmpty && ex.isEmpty then
              let n : Int := Int.ofNat (digitsToNat p.1)
              Option.some (.int (if sgn.1.isEmpty then n else -n), r2)
            else
              Option.some (.float (String.mk (sgn.1 ++ p.1 ++ frac ++ ex)), r2)

mutual

/-- One JSON value, dispatching on the first (non-whitespace) character.
`fuel` strictly decreases on every recursive call; callers supply
`length + 1`, which is sufficient because at least one character is consumed
before each recursive call. -/
def parseJsonValue : Nat → List Char → Option (PyValue × List Char)
  | 0, _ => Option.none
  | fuel + 1, cs =>
      match cs with
      | '{' :: rest =>
          let r1 := skipJsonWs rest
          match r1 with
          | '}' :: r2 => Option.some (.dict [], r2)
          | _ => parseJsonMembers fuel r1 []
      | '[' :: rest =>
          let r1 := skipJsonWs rest
          match r1 with
          | ']' :: r2 => Option.some (.list [], r2)
          | _ => parseJsonElements fuel r1 []
      | '"' :: rest =>
          match jsonStringAux [] rest with
          | Option.some (content, r1) => Option.some (.str (String.mk content), r1)
          | Option.none => Option.none
      | 't' :: 'r' :: 'u' :: 'e' :: rest => Option.some (.bool true, rest)
      | 'f' :: 'a' :: 'l' :: 's' :: 'e' :: rest => Option.some (.bool false, rest)
      | 'n' :: 'u' :: 'l' :: 'l' :: rest => Option.some (.none, rest)
      | 'N' :: 'a' :: 'N' :: rest => Option.some (.float "NaN", rest)
      | 'I' :: 'n' :: 'f' :: 'i' :: 'n' :: 'i' :: 't' :: 'y' :: rest =>
          Option.some (.float "Infinity", rest)
      | '-' :: 'I' :: 'n' :: 'f' :: 'i' :: 'n' :: 'i' :: 't' :: 'y' :: rest =>
          Option.some (.float "-Infinity", rest)
      | _ => parseJsonNumber cs

/-- Object members, positioned at a key; duplicate keys overwrite (last wins),
as in Python. -/
def parseJsonMembers : Nat → List Char → List (String × PyValue) →
    Option (PyValue × List Char)
  | 0, _, _ => Option.none
  | fuel + 1, cs, acc =>
      match cs with
      | '"' :: rest =>
          match jsonStringAux [] rest with
          | Option.none => Option.none
          | Option.some (kcs, r1) =>
              match skipJsonWs r1 with
              | ':' :: r2 =>
                  match parseJsonValue fuel (skipJsonWs r2) with
                  | Option.none => Option.none
                  | Option.some (v, r3) =>
                      let acc2 := assocSet acc (String.mk kcs) v
                      match skipJsonWs r3 with
                      | ',' :: r4 => parseJsonMembers fuel (skipJsonWs r4) acc2
                      | '}' :: r4 => Option.some (.dict acc2, r4)
                      | _ => Option.none
              | _ => Option.none
      | _ => Option.none

/-- Array elements, positioned at a value. -/
def parseJsonElements : Nat → List Char → List PyValue →
    Option (PyValue × List Char)
  | 0, _, _ => Option.none
  | fuel + 1, cs, acc =>
      match parseJsonValue fuel cs with
      | Option.none => Option.none
      | Option.some (v, r1) =>
          match skipJsonWs r1 with
          | ',' :: r2 => parseJsonElements fuel (skipJsonWs r2) (acc ++ [v])
          | ']' :: r2 => Option.some (.list (acc ++ [v]), r2)
          | _ => Option.none

end

/-- `json.loads` on a character list: a single JSON document, with optional
surrounding whitespace; anything else raises `json.JSONDecodeError`. -/
def json_loads_chars (cs : List Char) : Except PyErr PyValue :=
  match parseJsonValue (cs.length + 1) (skipJsonWs cs) with
  | Option.some (v, rest) =>
      if (skipJsonWs rest).isEmpty then Except.ok v
      else Except.error (.jsonDecodeError "Extra data")
  | Option.none => Except.error (.jsonDecodeError "Expecting value")

/-! ### Permissive literal parsing (model of `ast.literal_eval`)

Covers the literal grammar reachable from `extract_json`: single- or
double-quoted strings with Python escape handling, signed integers and
floats, `True`/`False`/`None`, lists, tuples (including parenthesised
single literals) and string-keyed dicts, all with optional trailing commas.
Set literals are omitted: a set literal needs braces, and any text containing
a brace span is routed to the strict-JSON branch of the extractor instead. -/

def skipPyWs (cs : List Char) : List Char :=
  cs.dropWhile isPySpace

/-- Body of a Python string literal with quote character `q`.  A raw newline
inside the literal is a syntax error; an unknown escape keeps its backslash. -/
def litStringAux (q : Char) (acc : List Char) : List Char → Option (List Char × List Char)
  | [] => Option.none
  | '\\' :: '\\' :: rest => litStringAux q ('\\' :: acc) rest
  | '\\' :: '\x27' :: rest => litStringAux q ('\x27' :: acc) rest
  | '\\' :: '"' :: rest => litStringAux q ('"' :: acc) rest
  | '\\' :: 'n' :: rest => litStringAux q ('\n' :: acc) rest
  | '\\' :: 'r' :: rest => litStringAux q ('\x0d' :: acc) rest
  | '\\' :: 't' :: rest => litStringAux q ('\t' :: acc) rest
  | '\\' :: 'b' :: rest => litStringAux q ('\x08' :: acc) rest
  | '\\' :: 'f' :: rest => litStringAux q ('\x0c' :: acc) rest
  | '\\' :: 'v' :: rest => litStringAux q ('\x0b' :: acc) rest
  | '\\' :: 'a' :: rest => litStringAux q ('\x07' :: acc) rest
  | '\\' :: '0' :: rest => litStringAux q ('\x00' :: acc) rest
  | '\\' :: '\n' :: rest => litStringAux q acc rest
  | '\\' :: 'x' :: h1 :: h2 :: rest =>
      match hexDigitVal h1, hexDigitVal h2 with
      | Option.some a, Option.some b => litStringAux q (Char.ofNat (a * 16 + b) :: acc) rest
      | _, _ => Option.none
  | '\\' :: e :: rest => litStringAux q (e :: '\\' :: acc) rest
  | '\\' :: [] => Option.none
  | c :: rest =>
      if c == q then Option.some (acc.reverse, rest)
      else if c == '\n' then Option.none
      else litStringAux q (c :: acc) rest

/-- Python number literal with an optional single sign; integers with a
leading-zero digit run are a syntax error; floats are carried opaquely. -/
def parseLitNumber (cs : List Char) : Option (PyValue × List Char) :=
  let sgn : List Char × List Char :=
    match cs with
    | '-' :: rest => (['-'], rest)
    | '+' :: rest => (['+'], rest)
    | _ => ([], cs)
  let p := sgn.2.span Char.isDigit
  if p.1.length > 1 && p.1.headD '0' == '0' then Option.none
  else
    match p.2 with
    | '.' :: r1 =>
        if p.1.isEmpty && !(r1.headD ' ').isDigit then Option.none
        else
          let q := r1.span Char.isDigit
          match parseJsonExp q.2 with
          | Option.some (ex, r2) =>
              Option.some (.float (String.mk (sgn.1 ++ p.1 ++ '.' :: q.1 ++ ex)), r2)
          | Option.none => Option.none
    | r1 =>
        if p.1.isEmpty then Option.none
        else
          match parseJsonExp r1 with
          | Option.some ([], _) =>
              let n : Int := Int.ofNat (digitsToNat p.1)
              Option.some (.int (if sgn.1 == ['-'] then -n else n), r1)
          | Option.some (ex, r2) =>
              Option.some (.float (String.mk (sgn.1 ++ p.1 ++ ex)), r2)
          | Option.none => Option.none

mutual

/-- One Python literal, positioned at a non-whitespace character. -/
def parseLitValue : Nat → List Char → Option (PyValue × List Char)
  | 0, _ => Option.none
  | fuel + 1, cs =>
      match cs with
      | '\x27' :: rest =>
          match litStringAux '\x27' [] rest with
          | Option.some (content, r1) => Option.some (.str (String.mk content), r1)
          | Option.none => Option.none
      | '"' :: rest =>
          match litStringAux '"' [] rest with
          | Option.some (content, r1) => Option.some (.str (String.mk content), r1)
          | Option.none => Option.none
      | '[' :: rest =>
          let r1 := skipPyWs rest
          match r1 with
          | ']' :: r2 => Option.some (.list [], r2)
          | _ => parseLitElements fuel r1 [] ']' false
      | '(' :: rest =>
          let r1 := skipPyWs rest
          match r1 with
          | ')' :: r2 => Option.some (.tuple [], r2)
          | _ =>
              match parseLitValue fuel r1 with
              | Option.none => Option.none
              | Option.some (v, r2) =>
                  match skipPyWs r2 with
                  | ')' :: r3 => Option.some (v, r3)
                  | ',' :: r3 => parseLitElements fuel (skipPyWs r3) [v] ')' true
                  | _ => Option.none
      | '{' :: rest =>
          let r1 := skipPyWs rest
          parseLitMembers fuel r1 []
      | 'T' :: 'r' :: 'u' :: 'e' :: rest => Option.some (.bool true, rest)
      | 'F' :: 'a' :: 'l' :: 's' :: 'e' :: rest => Option.some (.bool false, rest)
      | 'N' :: 'o' :: 'n' :: 'e' :: rest => Option.some (.none, rest)
      | _ => parseLitNumber cs

/-- Elements of a list or tuple body, positioned at a value or at the closing
bracket (so a trailing comma is accepted); `isTuple` picks the constructor. -/
def parseLitElements : Nat → List Char → List PyValue → Char → Bool →
    Option (PyValue × List Char)
  | 0, _, _, _, _ => Option.none
  | fuel + 1, cs, acc, close, isTuple =>
      match cs with
      | c :: rest =>
          if c == close then
            Option.some (if isTuple then .tuple acc.reverse else .list acc.reverse, rest)
          else
            match parseLitValue fuel cs with
            | Option.none => Option.none
            | Option.some (v, r1) =>
                match skipPyWs r1 with
                | ',' :: r2 => parseLitElements fuel (skipPyWs r2) (v :: acc) close isTuple
                | c2 :: r2 =>
                    if c2 == close then
                      Option.some
                        (if isTuple then .tuple (v :: acc).reverse else .list (v :: acc).reverse, r2)
                    else Option.none
                | [] => Option.none
      | [] => Option.none

/-- Members of a dict literal, positioned at a key or at `}` (so a trailing
comma is accepted).  Keys are required to be string literals: a non-string
key makes the whole parse fail (modelling restriction, see the header note). -/
def parseLitMembers : Nat → List Char → List (String × PyValue) →
    Option (PyValue × List Char)
  | 0, _, _ => Option.none
  | fuel + 1, cs, acc =>
      match cs with
      | '}' :: rest => Option.some (.dict acc, rest)
      | _ =>
          match parseLitValue fuel cs with
          | Option.some (.str k, r1) =>
              match skipPyWs r1 with
              | ':' :: r2 =>
                  match parseLitValue fuel (skipPyWs r2) with
                  | Option.none => Option.none
                  | Option.some (v, r3) =>
                      let acc2 := assocSet acc k v
                      match skipPyWs r3 with
                      | ',' :: r4 => parseLitMembers fuel (skipPyWs r4) acc2
                      | '}' :: r4 => Option.some (.dict acc2, r4)
                      | _ => Option.none
              | _ => Option.none
          | _ => Option.none

end

/-- `ast.literal_eval` on a character list: one literal with optional
surrounding whitespace; anything else raises `ValueError`/`SyntaxError`. -/
def literal_eval_chars (cs : List Char) : Except PyErr PyValue :=
  match parseLitValue (cs.length + 1) (skipPyWs cs) with
  | Option.some (v, rest) =>
      if (skipPyWs rest).isEmpty then Except.ok v
      else Except.error (.valueError "malformed node or string")
  | Option.none => Except.error (.valueError "malformed node or string")

/-! ### `extract_json` -/

/-- `re.sub(r"```(?:json)?", "", text)`: every occurrence of three backticks,
greedily extended by an immediately following `json`, is deleted, scanning
left to right over the whole text. -/
def stripFences : List Char → List Char
  | '`' :: '`' :: '`' :: 'j' :: 's' :: 'o' :: 'n' :: rest => stripFences rest
  | '`' :: '`' :: '`' :: rest => stripFences rest
  | c :: rest => c :: stripFences rest
  | [] => []

/-- `re.search(r"\{.*\}", text, re.DOTALL)`: with a greedy `.*` the match, if
any, runs from the first `\x7b` to the last `\x7d` of the text, and exists
exactly when that last `\x7d` lies strictly after the first `\x7b`. -/
def brace_span (cs : List Char) : Option (List Char) :=
  match List.findIdx? (fun c => c == '{') cs, List.findIdx? (fun c => c == '}') cs.reverse with
  | Option.some i, Option.some r =>
      let j := cs.length - 1 - r
      if i < j then Option.some ((cs.drop i).take (j - i + 1)) else Option.none
  | _, _ => Option.none

/-- `.replace(chr(10), " ").replace(chr(13), "")`: newlines become spaces,
carriage returns are deleted. -/
def cleanSpan (cs : List Char) : List Char :=
  (cs.map (fun c => if c == '\n' then ' ' else c)).filter (fun c => !(c == '\x0d'))

/-- The safe fallback mapping returned by the extractor on any failure. -/
def extract_json_fallback : PyValue :=
  .dict [("good_clausess", .list []), ("bad_clausess", .list []),
         ("error", .str "Could not extract valid JSON from the model response.")]

/-- The `try` body of `extract_json`: strip fence markers and whitespace, then
strict-parse the brace span if one exists, else literal-parse the stripped
text.  An error value models an exception reaching the `except` clause. -/
def extract_json_body (text : String) : Except PyErr PyValue :=
  match brace_span (pyStrip (stripFences text.data)) with
  | Option.some span => json_loads_chars (cleanSpan span)
  | Option.none => literal_eval_chars (pyStrip (stripFences text.data))

/-- `extract_json`: the `try` body with every exception converted to the
fallback mapping. -/
def extract_json (text : String) : PyValue :=
  match extract_json_body text with
  | Except.ok v => v
  | Except.error _ => extract_json_fallback

/-- `extract_json` as called by the pipeline, where the argument is whatever
the reply carried: on a non-string, `re.sub` raises `TypeError`, which the
extractor's own `except` turns into the fallback mapping. -/
def extract_json_py : PyValue → PyValue
  | .str s => extract_json s
  | _ => extract_json_fallback

/-! ### `analyze_with_mistral` -/

/-- The outcome of the single outbound provider call: the HTTP status and the
result of `response.json()` (a decode-failure message when the body is not
JSON). -/
structure HTTPResponse where
  status_code : Nat
  jsonBody : Except String PyValue

/-- The ambient world of one pipeline run: the `OPENROUTER_API_KEY`
environment value and the outcome of `requests.post` (a `RequestException`
message on network failure). -/
structure World where
  apiKey : Option String
  net : Except String HTTPResponse

/-- `if not OPENROUTER_API_KEY`: the credential is missing or empty. -/
def apiKeyFalsy : Option String → Bool
  | Option.none => true
  | Option.some s => s == ""

def notConfiguredResult : PyValue :=
  .dict [("error", .str "OpenRouter API key not configured"),
         ("good_clausess", .list []), ("bad_clausess", .list [])]

def system_message : String :=
  "You are a legal expert who analyzes contract clauses."

/-- The user prompt template with the legal text interpolated. -/
def mk_user_message (legal_text : String) : String :=
  "Analyze the following legal text and categorize each clause as either \"good\" or \"bad\" for a typical contract participant. Format your response as JSON with exactly two keys: \"good_clausess\" and \"bad_clausess\". Respond only with the JSON object. Legal text to analyze: " ++ legal_text

/-- `response.json()`; on failure `requests` raises its `JSONDecodeError`,
which subclasses `RequestException` and is caught by the first except clause. -/
def resp_json (r : HTTPResponse) : Except PyErr PyValue :=
  match r.jsonBody with
  | Except.ok v => Except.ok v
  | Except.error m => Except.error (.requestError m)

/-- `response_data["choices"][0]["message"]["content"]`. -/
def chainContent (response_data : PyValue) : Except PyErr PyValue :=
  match py_subscript response_data (.str "choices") with
  | Except.error e => Except.error e
  | Except.ok choices =>
    match py_subscript choices (.int 0) with
    | Except.error e => Except.error e
    | Except.ok c0 =>
      match py_subscript c0 (.str "message") with
      | Except.error e => Except.error e
      | Except.ok message => py_subscript message (.str "content")

/-- `json.loads` as applied to an arbitrary value: a `TypeError` on anything
that is not a string. -/
def json_loads_py : PyValue → Except PyErr PyValue
  | .str s => json_loads_chars s.data
  | v => Except.error (.typeError ("the JSON object must be str, bytes or bytearray, not " ++ v.typeName))

/-- The three `except` clauses of `analyze_with_mistral`, in source order:
`requests.exceptions.RequestException`, `json.JSONDecodeError`, `Exception`. -/
def handle_exc : PyErr → PyValue
  | .requestError m =>
      .dict [("error", .str ("Request error: " ++ m)),
             ("good_clausess", .list []), ("bad_clausess", .list [])]
  | .jsonDecodeError _ =>
      .dict [("error", .str "Failed to parse AI response"),
             ("good_clausess", .list []), ("bad_clausess", .list [])]
  | e =>
      .dict [("error", .str ("Analysis error: " ++ e.message)),
             ("good_clausess", .list []), ("bad_clausess", .list [])]

/-- `"good_clausess" not in result or "bad_clausess" not in result`, with
Python short-circuit evaluation (the second test only runs when the first key
is present). -/
def keysMissing (result : PyValue) : Except PyErr Bool :=
  match py_contains (.str "good_clausess") result with
  | Except.error e => Except.error e
  | Except.ok g =>
    if !g then Except.ok true
    else
      match py_contains (.str "bad_clausess") result with
      | Except.error e => Except.error e
      | Except.ok b => Except.ok (!b)

/-- The normalised return mapping built by both branches of the key check:
`{"good_clausess": result.get("good_clausess", []), "bad_clausess":
result.get("bad_clausess", [])}`. -/
def normalizeResult (result : PyValue) : Except PyErr PyValue :=
  match py_get result "good_clausess" (.list []) with
  | Except.error e => Except.error e
  | Except.ok goodV =>
    match py_get result "bad_clausess" (.list []) with
    | Except.error e => Except.error e
    | Except.ok badV =>
        Except.ok (.dict [("good_clausess", goodV), ("bad_clausess", badV)])

/-- `result = json_text if isinstance(json_text, dict) else
json.loads(json_text)`. -/
def coerceResult (json_text : PyValue) : Except PyErr PyValue :=
  if json_text.isDict then Except.ok json_text else json_loads_py json_text

/-- The `try` body of `analyze_with_mistral`.  An `Except.ok` is a value
returned by the body; an `Except.error` is an exception reaching the
`except` clauses. -/
def analyze_with_mistral_body (w : World) (legal_text : String) :
    Except PyErr PyValue :=
  if apiKeyFalsy w.apiKey then Except.ok notConfiguredResult
  else
    let _user_message := mk_user_message legal_text
    match w.net with
    | Except.error m => Except.error (.requestError m)
    | Except.ok response =>
      if response.status_code == 200 then
        match resp_json response with
        | Except.error e => Except.error e
        | Except.ok response_data =>
          match chainContent response_data with
          | Except.error e => Except.error e
          | Except.ok response_content =>
            -- json_text = extract_json(response_content)
            match coerceResult (extract_json_py response_content) with
            | Except.error e => Except.error e
            | Except.ok result =>
              match keysMissing result with
              | Except.error e => Except.error e
              | Except.ok missing =>
                -- the two source branches build the same mapping; the check
                -- only drives a warning log
                if missing then normalizeResult result else normalizeResult result
      else
        Except.ok (.dict [("error", .str ("API request failed: " ++ toString response.status_code)),
                          ("good_clausess", .list []), ("bad_clausess", .list [])])

def analyze_with_mistral (w : World) (legal_text : String) : PyValue :=
  match analyze_with_mistral_body w legal_text with
  | Except.ok v => v
  | Except.error e => handle_exc e

/-! ### `analyze_clauses` (the request handler) -/

def missingFieldResult : PyValue :=
  .dict [("error", .str "Missing \x27legal_text\x27 in request body")]

def invalidTextResult : PyValue :=
  .dict [("error", .str "Invalid or empty legal text provided")]

/-- `not data or "legal_text" not in data`, with Python short-circuit
evaluation (a falsy body is reported missing without a membership test). -/
def requestMissingCheck (data : PyValue) : Except PyErr Bool :=
  if py_falsy data then Except.ok true
  else
    match py_contains (.str "legal_text") data with
    | Except.error e => Except.error e
    | Except.ok c => Except.ok (!c)

/-- The `try` body of the handler.  `data` is the value of
`request.get_json()` (with `PyValue.none` for an absent body); `analyze` is
the pipeline invoked on the validated text; the result pairs the HTTP status
with the JSON body. -/
def analyze_clauses_body (analyze : String → PyValue) (data : PyValue) :
    Except PyErr (Nat × PyValue) :=
  match requestMissingCheck data with
  | Except.error e => Except.error e
  | Except.ok missing =>
    if missing then Except.ok (400, missingFieldResult)
    else
      match py_subscript data (.str "legal_text") with
      | Except.error e => Except.error e
      | Except.ok legal_text =>
        match legal_text with
        | .str s =>
            if s == "" || pyStripString s == "" then Except.ok (400, invalidTextResult)
            else Except.ok (200, analyze s)
        | _ => Except.ok (400, invalidTextResult)

/-- `analyze_clauses`: the body with the blanket `except` mapped to 500. -/
def analyze_clauses (analyze : String → PyValue) (data : PyValue) : Nat × PyValue :=
  match analyze_clauses_body analyze data with
  | Except.ok r => r
  | Except.error e => (500, .dict [("error", .str ("Internal server error: " ++ e.message))])

/-- The composed endpoint: the handler wired to the real pipeline in world `w`. -/
def handle_request (w : World) (data : PyValue) : Nat × PyValue :=
  analyze_clauses (analyze_with_mistral w) data

/-! ### Small observers used by the theorems -/

def py_lookup (v : PyValue) (k : String) : Option PyValue :=
  match v with
  | .dict kvs => dictLookup kvs k
  | _ => Option.none

/-- Both normalised output keys are present in the mapping. -/
def hasBothKeys (v : PyValue) : Bool :=
  (py_lookup v "good_clausess").isSome && (py_lookup v "bad_clausess").isSome

/-- A well-shaped provider body whose only choice carries `reply` as content. -/
def choicesWrap (reply : String) : PyValue :=
  .dict [("choices", .list [.dict [("message", .dict [("content", .str reply)])]])]

/-- A world where the credential is set and the provider answers 200 with a
well-shaped body carrying `reply`. -/
def mkWorld (reply : String) : World :=
  { apiKey := Option.some "key",
    net := Except.ok { status_code := 200, jsonBody := Except.ok (choicesWrap reply) } }

def extractFailed (e : Except PyErr PyValue) : Bool :=
  match e with
  | Except.ok _ => false
  | Except.error _ => true

/-- The string bound to key `k`, or `""` when the key is absent or bound to a
non-string; used to separate observably different mappings. -/
def pyLookStr (v : PyValue) (k : String) : String :=
  match py_lookup v k with
  | Option.some (PyValue.str s) => s
  | _ => ""

/-- A contiguous run of three backticks occurs somewhere in the text. -/
def hasTripleBacktick : List Char → Bool
  | '`' :: '`' :: '`' :: _ => true
  | _ :: rest => hasTripleBacktick rest
  | [] => false

/-- Exceptions that fall through to the blanket `except Exception` clause of
the pipeline (neither a `RequestException` nor a `json.JSONDecodeError`). -/
def isAnalysisErr : PyErr → Bool
  | .requestError _ => false
  | .jsonDecodeError _ => false
  | _ => true

/-! ### Spec-worded extractor variants

Each of the following definitions follows the words of one spec sentence
rather than the source, to be compared with `extract_json`. -/

/-- The extractor as claim C3 words it: when the strict parse of a found
brace span fails, the permissive literal parse of the stripped text is still
attempted before falling back. -/
def extract_json_spec_c3 (text : String) : PyValue :=
  match brace_span (pyStrip (stripFences text.data)) with
  | Option.some span =>
      match json_loads_chars (cleanSpan span) with
      | Except.ok v => v
      | Except.error _ =>
          match literal_eval_chars (pyStrip (stripFences text.data)) with
          | Except.ok v => v
          | Except.error _ => extract_json_fallback
  | Option.none =>
      match literal_eval_chars (pyStrip (stripFences text.data)) with
      | Except.ok v => v
      | Except.error _ => extract_json_fallback

/-- Span cleaning as claim C7 words it: newlines AND carriage returns are
both collapsed to spaces. -/
def cleanSpan_spec_c7 (cs : List Char) : List Char :=
  (cs.map (fun c => if c == '\n' then ' ' else c)).map
    (fun c => if c == '\x0d' then ' ' else c)

/-- The extractor with claim C7's cleaning in place of the source's. -/
def extract_json_spec_c7 (text : String) : PyValue :=
  match brace_span (pyStrip (stripFences text.data)) with
  | Option.some span =>
      match json_loads_chars (cleanSpan_spec_c7 span) with
      | Except.ok v => v
      | Except.error _ => extract_json_fallback
  | Option.none =>
      match literal_eval_chars (pyStrip (stripFences text.data)) with
      | Except.ok v => v
      | Except.error _ => extract_json_fallback

/-- Span cleaning as amended: carriage returns are deleted, newlines become
spaces (phrased as filter-then-map; the source maps then filters). -/
def cleanSpanAmended (cs : List Char) : List Char :=
  (cs.filter (fun c => !(c == '\x0d'))).map (fun c => if c == '\n' then ' ' else c)

/-- The extractor with the amended cleaning. -/
def extract_json_amended_c7 (text : String) : PyValue :=
  match brace_span (pyStrip (stripFences text.data)) with
  | Option.some span =>
      match json_loads_chars (cleanSpanAmended span) with
      | Except.ok v => v
      | Except.error _ => extract_json_fallback
  | Option.none =>
      match literal_eval_chars (pyStrip (stripFences text.data)) with
      | Except.ok v => v
      | Except.error _ => extract_json_fallback

/-! ### General lemmas -/

/-- Every mapping built by the except clauses carries both clause-list keys. -/
theorem hasBothKeys_handle_exc (e : PyErr) : hasBothKeys (handle_exc e) = true := by
  cases e <;> rfl

/-- Every value returned by the try body of the pipeline carries both
clause-list keys. -/
theorem body_ok_shape (w : World) (t : String) (v : PyValue)
    (h : analyze_with_mistral_body w t = Except.ok v) : hasBothKeys v = true := by
  unfold analyze_with_mistral_body normalizeResult at h
  repeat (any_goals (split at h))
  all_goals first
  | exact (Except.noConfusion h)
  | (simp only [Except.ok.injEq] at h; subst h; rfl)

theorem listStartsWith_self_append (a b : List Char) :
    listStartsWith a (a ++ b) = true := by
  induction a with
  | nil => rfl
  | cons c rest ih => simp [listStartsWith, ih]

theorem strStartsWith_analysis (m : String) :
    strStartsWith "Analysis error:" ("Analysis error: " ++ m) = true := by
  unfold strStartsWith
  rw [String.data_append]
  have h : ("Analysis error: ".data : List Char) = "Analysis error:".data ++ [' '] := rfl
  rw [h, List.append_assoc]
  exact listStartsWith_self_append _ _

/-- `pyIndex` fails only with an `IndexError`, which the blanket except
clause of the pipeline absorbs. -/
theorem pyIndex_error_kind (xs : List PyValue) (i : Int) (msg : String) (e : PyErr)
    (h : pyIndex xs i msg = Except.error e) : isAnalysisErr e = true := by
  unfold pyIndex at h
  repeat (any_goals (split at h))
  all_goals first
  | exact (Except.noConfusion h)
  | (simp only [Except.error.injEq] at h; subst h; rfl)

/-- Subscription fails only with Key-, Index- or TypeError, all absorbed by
the blanket except clause. -/
theorem py_subscript_error_kind (v k : PyValue) (e : PyErr)
    (h : py_subscript v k = Except.error e) : isAnalysisErr e = true := by
  unfold py_subscript at h
  repeat (any_goals (split at h))
  all_goals first
  | exact (Except.noConfusion h)
  | exact pyIndex_error_kind _ _ _ _ h
  | (simp only [Except.error.injEq] at h; subst h; rfl)

/-- The chained subscripts over the provider body fail only with exceptions
that reach the blanket except clause. -/
theorem chainContent_error_kind (bodyv : PyValue) (e : PyErr)
    (h : chainContent bodyv = Except.error e) : isAnalysisErr e = true := by
  unfold chainContent at h
  repeat (any_goals (split at h))
  all_goals first
  | exact (Except.noConfusion h)
  | exact py_subscript_error_kind _ _ _ h
  | (simp only [Except.error.injEq] at h; subst h; rename_i heq; exact py_subscript_error_kind _ _ _ heq)

/-- An exception outside the first two except clauses produces the
`Analysis error:` mapping. -/
theorem handle_exc_analysis (e : PyErr) (h : isAnalysisErr e = true) :
    handle_exc e
      = PyValue.dict [("error", PyValue.str ("Analysis error: " ++ e.message)),
                      ("good_clausess", PyValue.list []), ("bad_clausess", PyValue.list [])] := by
  cases e <;> first | rfl | exact absurd h (by simp [isAnalysisErr])

theorem cleanSpan_eq_amended (cs : List Char) : cleanSpan cs = cleanSpanAmended cs := by
  unfold cleanSpan cleanSpanAmended
  induction cs with
  | nil => rfl
  | cons c rest ih =>
      by_cases h2 : c = '\x0d'
      · subst h2; simp_all
      · by_cases h1 : c = '\n'
        · subst h1; simp_all [List.filter_cons]
        · simp_all [List.filter_cons]

theorem twoTickStart_shape (l : List Char) (h : listStartsWith ['`', '`'] l = true) :
    ∃ r2, l = '`' :: '`' :: r2 := by
  match l with
  | [] => exact absurd h (by decide)
  | [c] => simp [listStartsWith] at h
  | a :: b :: r2 =>
      simp [listStartsWith] at h
      obtain ⟨h1, h2⟩ := h
      subst h1; subst h2
      exact ⟨r2, rfl⟩

/-- A character that does not open a fence marker is kept by the global
substitution. -/
theorem stripFences_cons_keep (c : Char) (rest : List Char)
    (h : ¬(c = '`' ∧ listStartsWith ['`', '`'] rest = true)) :
    stripFences (c :: rest) = c :: stripFences rest := by
  rw [stripFences.eq_def]
  split
  case _ r heq =>
      rw [List.cons.injEq] at heq
      exact absurd ⟨heq.1, by rw [heq.2]; rfl⟩ h
  case _ r heq =>
      rw [List.cons.injEq] at heq
      exact absurd ⟨heq.1, by rw [heq.2]; rfl⟩ h
  case _ x r heq =>
      rw [List.cons.injEq] at heq
      rw [heq.1, heq.2]
  case _ heq => exact absurd heq (by simp)

theorem stripFences_head_not_tick (r : List Char) (h : listStartsWith ['`'] r = false) :
    listStartsWith ['`'] (stripFences r) = false := by
  match r with
  | [] => exact h
  | z :: r3 =>
      simp [listStartsWith] at h ⊢
      rw [stripFences_cons_keep z r3 (fun hc => h hc.1.symm)]
      simp [listStartsWith]
      exact fun hz => absurd hz h

theorem stripFences_head_not_2ticks (r : List Char) (h : listStartsWith ['`', '`'] r = false) :
    listStartsWith ['`', '`'] (stripFences r) = false := by
  match r with
  | [] => exact h
  | x :: r2 =>
      by_cases hx : x = '`'
      · subst hx
        have hr2 : listStartsWith ['`'] r2 = false := by
          by_contra hc
          rw [Bool.not_eq_false] at hc
          simp [listStartsWith, hc] at h
        have hr2two : listStartsWith ['`', '`'] r2 = false := by
          by_contra hc
          rw [Bool.not_eq_false] at hc
          obtain ⟨r3, hr3⟩ := twoTickStart_shape r2 hc
          rw [hr3] at hr2
          simp [listStartsWith] at hr2
        rw [stripFences_cons_keep '`' r2
          (fun hc => by rw [hc.2] at hr2two; exact Bool.noConfusion hr2two)]
        simp [listStartsWith]
        exact stripFences_head_not_tick r2 hr2
      · rw [stripFences_cons_keep x r2 (fun hc => hx hc.1)]
        simp [listStartsWith]
        exact fun hz => absurd hz.symm hx

theorem hasTriple_cons_false (c : Char) (s : List Char)
    (h1 : hasTripleBacktick s = false)
    (h2 : ¬(c = '`' ∧ listStartsWith ['`', '`'] s = true)) :
    hasTripleBacktick (c :: s) = false := by
  rw [hasTripleBacktick.eq_def]
  split
  case _ tail heq =>
      rw [List.cons.injEq] at heq
      exact absurd ⟨heq.1, by rw [heq.2]; rfl⟩ h2
  case _ x r heq =>
      rw [List.cons.injEq] at heq
      rw [← heq.2]
      exact h1
  case _ heq => exact absurd heq (by simp)

/-- Fence removal leaves no run of three backticks anywhere in its output:
every occurrence is consumed, wherever it stands. -/
theorem stripFences_no_triple (cs : List Char) :
    hasTripleBacktick (stripFences cs) = false := by
  induction cs using stripFences.induct
  case case1 rest ih => simpa [stripFences] using ih
  case case2 rest ih => simpa [stripFences] using ih
  case case3 c rest h1 h2 ih =>
      have hrest : listStartsWith ['`', '`'] rest = false ∨ ¬c = '`' := by
        by_cases hc : c = '`'
        · left
          by_contra hp
          rw [Bool.not_eq_false] at hp
          obtain ⟨r2, hr2⟩ := twoTickStart_shape rest hp
          exact h2 r2 hc hr2
        · right; exact hc
      have hkeep : stripFences (c :: rest) = c :: stripFences rest := by
        refine stripFences_cons_keep c rest ?_
        rintro ⟨hc, hp⟩
        rcases hrest with hfa | hnc
        · rw [hfa] at hp; exact Bool.noConfusion hp
        · exact hnc hc
      rw [hkeep]
      refine hasTriple_cons_false c (stripFences rest) ih ?_
      rintro ⟨hc, hp⟩
      rcases hrest with hfa | hnc
      · rw [stripFences_head_not_2ticks rest hfa] at hp
        exact Bool.noConfusion hp
      · exact hnc hc
  case case4 => rfl

/-! ### Claim theorems -/

/-- Claim C1, counterexample.  The claim asserts that the pipeline result
carries keys `good_clauses` and `bad_clauses`, bound to sequences and never
null.  On the missing-credential path the result carries no key
`good_clauses` at all (the code spells its keys `good_clausess` and
`bad_clausess`); and on a success path whose model reply binds those keys to
JSON null, the returned values are null, not sequences. -/
theorem c1_counterexample :
    py_lookup (analyze_with_mistral
        { apiKey := Option.none, net := Except.error "connection refused" } "some text")
        "good_clauses" = Option.none
    ∧ py_lookup (analyze_with_mistral
        (mkWorld "\x7b\"good_clausess\": null, \"bad_clausess\": null\x7d") "some text")
        "good_clausess" = Option.some PyValue.none :=
  ⟨rfl, rfl⟩

/-- Claim C1, amended.  For every world (credential present or missing,
provider reachable or not, any status and body) and every input text, the
mapping returned by `analyze_with_mistral` contains both keys
`good_clausess` and `bad_clausess`; the bound values are empty lists on all
degraded paths but are passed through from the extracted mapping on the
success path, where they need not be sequences. -/
theorem c1_both_keys_always_present (w : World) (t : String) :
    hasBothKeys (analyze_with_mistral w t) = true := by
  unfold analyze_with_mistral
  split
  case _ v heq => exact body_ok_shape w t v heq
  case _ e heq => exact hasBothKeys_handle_exc e

/-- Claim C2, counterexample.  For the unparseable model reply
`no json here` the pipeline returns exactly the two empty clause lists and
NO `error` field: the explanatory error set by the extractor fallback is
discarded by the key normalisation step, contradicting the claim. -/
theorem c2_counterexample :
    analyze_with_mistral (mkWorld "no json here") "some text"
      = PyValue.dict [("good_clausess", PyValue.list []), ("bad_clausess", PyValue.list [])]
    ∧ py_lookup (analyze_with_mistral (mkWorld "no json here") "some text") "error"
      = Option.none :=
  ⟨rfl, rfl⟩

/-- Claim C2, amended.  For every model reply on which both extraction
attempts fail, the pipeline returns the mapping with both clause lists empty
and nothing else: the extractor fallback carries an explanatory `error`
field, but the key-normalisation step of the pipeline keeps only the two
clause-list keys, so no `error` field reaches the handler. -/
theorem c2_amended_error_dropped (w : World) (t reply : String) (response : HTTPResponse)
    (hkey : apiKeyFalsy w.apiKey = false)
    (hnet : w.net = Except.ok response)
    (hstatus : response.status_code = 200)
    (hbody : response.jsonBody = Except.ok (choicesWrap reply))
    (hfail : extractFailed (extract_json_body reply) = true) :
    analyze_with_mistral w t
      = PyValue.dict [("good_clausess", PyValue.list []), ("bad_clausess", PyValue.list [])] := by
  have hex : extract_json reply = extract_json_fallback := by
    unfold extract_json
    cases hb : extract_json_body reply with
    | error e => rfl
    | ok v => rw [hb] at hfail; exact absurd hfail (by simp [extractFailed])
  have hchain : chainContent (choicesWrap reply) = Except.ok (PyValue.str reply) := rfl
  unfold analyze_with_mistral analyze_with_mistral_body resp_json
  simp only [hkey, Bool.false_eq_true, if_false, hnet, hstatus, hbody, hchain,
    beq_self_eq_true, if_true, extract_json_py, hex]
  rfl

/-- Claim C2, witness: the amended theorem applied to a concrete world whose
model reply defeats both extraction attempts. -/
theorem c2_witness :
    analyze_with_mistral (mkWorld "absolutely no json") "sample"
      = PyValue.dict [("good_clausess", PyValue.list []), ("bad_clausess", PyValue.list [])] :=
  c2_amended_error_dropped (mkWorld "absolutely no json") "sample" "absolutely no json"
    { status_code := 200, jsonBody := Except.ok (choicesWrap "absolutely no json") }
    rfl rfl rfl rfl rfl

/-- Claim C3, counterexample.  On the single-quoted input, a brace span is
found and its strict parse fails, yet the extractor returns the fallback
without attempting the permissive literal parse, although that parse would
succeed: the extractor differs from the claim-worded variant
`extract_json_spec_c3` at this input. -/
theorem c3_counterexample :
    extract_json "\x7b\x27a\x27: 1\x7d" = extract_json_fallback
    ∧ extract_json_spec_c3 "\x7b\x27a\x27: 1\x7d" = PyValue.dict [("a", PyValue.int 1)]
    ∧ extract_json "\x7b\x27a\x27: 1\x7d" ≠ extract_json_spec_c3 "\x7b\x27a\x27: 1\x7d" := by
  refine ⟨rfl, rfl, ?_⟩
  intro h
  have ha : pyLookStr (extract_json "\x7b\x27a\x27: 1\x7d") "error"
      = "Could not extract valid JSON from the model response." := rfl
  rw [h] at ha
  have hb : pyLookStr (extract_json_spec_c3 "\x7b\x27a\x27: 1\x7d") "error" = "" := rfl
  rw [hb] at ha
  exact absurd ha (by decide)

/-- Claim C3, amended.  The permissive literal parse of the stripped text is
attempted only when NO brace span is found; when a span is found and its
strict JSON parse fails, the raised exception reaches the except clause and
the extractor returns the fallback directly, with no literal attempt. -/
theorem c3_amended_literal_only_without_span (text : String) :
    (brace_span (pyStrip (stripFences text.data)) = Option.none →
       extract_json text
         = (match literal_eval_chars (pyStrip (stripFences text.data)) with
            | Except.ok v => v
            | Except.error _ => extract_json_fallback))
    ∧ (∀ span e, brace_span (pyStrip (stripFences text.data)) = Option.some span →
         json_loads_chars (cleanSpan span) = Except.error e →
         extract_json text = extract_json_fallback) := by
  constructor
  · intro h
    unfold extract_json extract_json_body
    rw [h]
  · intro span e hs he
    unfold extract_json extract_json_body
    simp only [hs, he]

/-- Claim C3, witness: the amended theorem applied to a concrete input with
a brace span whose strict parse fails. -/
theorem c3_witness : extract_json "\x7b\x27b\x27: 2\x7d" = extract_json_fallback :=
  (c3_amended_literal_only_without_span "\x7b\x27b\x27: 2\x7d").2 _ _ rfl rfl

/-- Claim C4.  The extractor resolves a JSON object wrapped in prose and one
wrapped in a markdown fence, via the greedy first-to-last brace span. -/
theorem c4_prose_and_fence_extraction :
    extract_json "Here is the result: \x7b\"good_clauses\": [], \"bad_clauses\": [\"x\"]\x7d Thanks!"
      = PyValue.dict [("good_clauses", PyValue.list []), ("bad_clauses", PyValue.list [PyValue.str "x"])]
    ∧ extract_json "```json\n\x7b\"good_clauses\":[\"a\"],\"bad_clauses\":[\"b\"]\x7d\n```"
      = PyValue.dict [("good_clauses", PyValue.list [PyValue.str "a"]),
                      ("bad_clauses", PyValue.list [PyValue.str "b"])] :=
  ⟨rfl, rfl⟩

/-- Claim C5.  For every input string the extractor is total: the result is
either the documented fallback mapping with empty clause lists and an error
message, or the value successfully produced by the try body (in the model,
every exception is an `Except.error` of the body, and the except clause maps
it to the fallback, so no exception escapes). -/
theorem c5_extract_never_raises (text : String) :
    extract_json text
      = PyValue.dict [("good_clausess", PyValue.list []), ("bad_clausess", PyValue.list []),
                      ("error", PyValue.str "Could not extract valid JSON from the model response.")]
    ∨ extract_json_body text = Except.ok (extract_json text) := by
  cases h : extract_json_body text with
  | error e => left; simp [extract_json, h, extract_json_fallback]
  | ok v => right; simp [extract_json, h]

/-- Claim C6.  For a missing body or a JSON-object body without the key
`legal_text`, the handler returns 400 with the exact missing-field message;
for an object body whose `legal_text` is not a string or is blank after
trimming, it returns 400 with the exact invalid-text message; in both cases
the result is independent of the pipeline function, i.e. the pipeline is
never invoked. -/
theorem c6_handler_validation (f g : String → PyValue) (data : PyValue) :
    ((data = PyValue.none ∨ ∃ kvs, data = PyValue.dict kvs ∧ dictHasKey kvs "legal_text" = false) →
       analyze_clauses f data
           = (400, PyValue.dict [("error", PyValue.str "Missing \x27legal_text\x27 in request body")])
         ∧ analyze_clauses f data = analyze_clauses g data)
    ∧ (∀ kvs v, data = PyValue.dict kvs → dictLookup kvs "legal_text" = Option.some v →
         (match v with | PyValue.str s => pyStripString s == "" | _ => true) = true →
         analyze_clauses f data
             = (400, PyValue.dict [("error", PyValue.str "Invalid or empty legal text provided")])
           ∧ analyze_clauses f data = analyze_clauses g data) := by
  constructor
  · rintro (rfl | ⟨kvs, rfl, hk⟩)
    · exact ⟨rfl, rfl⟩
    · cases kvs with
      | nil => exact ⟨rfl, rfl⟩
      | cons hd tl =>
          have key : ∀ h : String → PyValue,
              analyze_clauses h (PyValue.dict (hd :: tl))
                = (400, PyValue.dict [("error", PyValue.str "Missing \x27legal_text\x27 in request body")]) := by
            intro h
            have hm : requestMissingCheck (PyValue.dict (hd :: tl)) = Except.ok true := by
              unfold requestMissingCheck
              simp [py_falsy, py_contains, hk]
            unfold analyze_clauses analyze_clauses_body
            rw [hm]
            rfl
          exact ⟨key f, (key f).trans (key g).symm⟩
  · rintro kvs v rfl hl hv
    have key : ∀ h : String → PyValue,
        analyze_clauses h (PyValue.dict kvs)
          = (400, PyValue.dict [("error", PyValue.str "Invalid or empty legal text provided")]) := by
      intro h
      have hne : py_falsy (PyValue.dict kvs) = false := by
        cases kvs with
        | nil => exact absurd hl (by simp [dictLookup])
        | cons a b => simp [py_falsy]
      have hm : requestMissingCheck (PyValue.dict kvs) = Except.ok false := by
        unfold requestMissingCheck
        simp [hne, py_contains, dictHasKey, hl]
      have hs : py_subscript (PyValue.dict kvs) (PyValue.str "legal_text") = Except.ok v := by
        simp only [py_subscript]
        rw [hl]
      unfold analyze_clauses analyze_clauses_body
      rw [hm, hs]
      cases v with
      | str s =>
          have hc : (s == "" || pyStripString s == "") = true := by
            rw [Bool.or_eq_true]; right; exact hv
          simp only [hc, if_true]
          rfl
      | none => rfl
      | bool b => rfl
      | int n => rfl
      | float r => rfl
      | list xs => rfl
      | tuple xs => rfl
      | dict kvs2 => rfl
    exact ⟨key f, (key f).trans (key g).symm⟩

/-- Claim C6, witness: the theorem applied to a body without the key and to
a body whose text is blank, with two distinct pipeline stand-ins. -/
theorem c6_witness :
    analyze_clauses (fun _ => PyValue.none) (PyValue.dict [("x", PyValue.int 1)])
        = (400, PyValue.dict [("error", PyValue.str "Missing \x27legal_text\x27 in request body")])
    ∧ analyze_clauses (fun _ => PyValue.none) (PyValue.dict [("legal_text", PyValue.str "   ")])
        = (400, PyValue.dict [("error", PyValue.str "Invalid or empty legal text provided")]) :=
  ⟨((c6_handler_validation (fun _ => PyValue.none) (fun _ => PyValue.str "")
      (PyValue.dict [("x", PyValue.int 1)])).1
      (Or.inr ⟨[("x", PyValue.int 1)], rfl, rfl⟩)).1,
   ((c6_handler_validation (fun _ => PyValue.none) (fun _ => PyValue.str "")
      (PyValue.dict [("legal_text", PyValue.str "   ")])).2
      [("legal_text", PyValue.str "   ")] (PyValue.str "   ") rfl rfl rfl).1⟩

/-- Claim C7, counterexample.  On a span holding a raw carriage return
inside a JSON string, the extractor deletes the character (yielding `xy`)
while the claim-worded variant `extract_json_spec_c7`, which collapses
carriage returns to spaces, yields `x y`: the two disagree. -/
theorem c7_counterexample :
    extract_json "\x7b\"a\": \"x\ry\"\x7d" = PyValue.dict [("a", PyValue.str "xy")]
    ∧ extract_json_spec_c7 "\x7b\"a\": \"x\ry\"\x7d" = PyValue.dict [("a", PyValue.str "x y")]
    ∧ extract_json "\x7b\"a\": \"x\ry\"\x7d" ≠ extract_json_spec_c7 "\x7b\"a\": \"x\ry\"\x7d" := by
  refine ⟨rfl, rfl, ?_⟩
  intro h
  have ha : pyLookStr (extract_json "\x7b\"a\": \"x\ry\"\x7d") "a" = "xy" := rfl
  rw [h] at ha
  have hb : pyLookStr (extract_json_spec_c7 "\x7b\"a\": \"x\ry\"\x7d") "a" = "x y" := rfl
  rw [hb] at ha
  exact absurd ha (by decide)

/-- Claim C7, amended.  Before the strict parse of a found brace span, the
extractor collapses newlines to spaces and DELETES carriage returns (rather
than collapsing both to spaces): the extractor coincides with the variant
built from the amended cleaning on every input. -/
theorem c7_amended_cleaning (text : String) :
    extract_json text = extract_json_amended_c7 text := by
  unfold extract_json extract_json_body extract_json_amended_c7
  simp only [cleanSpan_eq_amended]
  cases hb : brace_span (pyStrip (stripFences text.data)) with
  | none => cases hl : literal_eval_chars (pyStrip (stripFences text.data)) <;> simp [hl]
  | some span => cases hj : json_loads_chars (cleanSpanAmended span) <;> simp [hj]

/-- Claim C8.  Fence stripping is a global substitution: no run of three
backticks survives it anywhere in any input; in particular a marker inside a
JSON string value is deleted, so a clause string carrying three backticks is
altered by extraction, and a marker in the middle of surrounding prose is
deleted before the brace-span search. -/
theorem c8_fence_removal_is_global :
    (∀ cs : List Char, hasTripleBacktick (stripFences cs) = false)
    ∧ extract_json "\x7b\"good_clausess\": [\"a```b\"], \"bad_clausess\": []\x7d"
        = PyValue.dict [("good_clausess", PyValue.list [PyValue.str "ab"]),
                        ("bad_clausess", PyValue.list [])]
    ∧ extract_json "x ```json y \x7b\"a\": 1\x7d" = PyValue.dict [("a", PyValue.int 1)] :=
  ⟨stripFences_no_triple, rfl, rfl⟩

/-- Claim C9, counterexample.  The claim covers every non-dict extractor
result on which the subsequent strict parse raises, but a non-dict STRING
result (here from the literal parse of a quoted reply) raises a
`json.JSONDecodeError`, which the second except clause turns into the error
`Failed to parse AI response` - not one starting with `Analysis error:`. -/
theorem c9_counterexample :
    (extract_json "\x27abc\x27" = PyValue.str "abc")
    ∧ (extract_json "\x27abc\x27").isDict = false
    ∧ py_lookup (analyze_with_mistral (mkWorld "\x27abc\x27") "t") "error"
        = Option.some (PyValue.str "Failed to parse AI response")
    ∧ strStartsWith "Analysis error:" "Failed to parse AI response" = false :=
  ⟨rfl, rfl, rfl, rfl⟩

/-- Claim C9, amended.  When the extractor returns a value that is neither a
dict nor a string (e.g. a list or tuple from the permissive literal parse),
the strict parse of it raises a TypeError, the pipeline does not propagate
the exception but returns a mapping whose `error` starts with
`Analysis error:` and whose clause lists are both empty, and the handler
still responds 200.  (For a non-dict string the exception is also absorbed,
but via the JSONDecodeError clause with a different message.) -/
theorem c9_amended_nondict_nonstr (w : World) (t reply : String) (response : HTTPResponse)
    (hkey : apiKeyFalsy w.apiKey = false)
    (hnet : w.net = Except.ok response)
    (hstatus : response.status_code = 200)
    (hbody : response.jsonBody = Except.ok (choicesWrap reply))
    (hdict : (extract_json reply).isDict = false)
    (hstr : (extract_json reply).isStr = false)
    (ht2 : (pyStripString t == "") = false) :
    (∃ m, analyze_with_mistral w t
        = PyValue.dict [("error", PyValue.str m), ("good_clausess", PyValue.list []),
                        ("bad_clausess", PyValue.list [])]
       ∧ strStartsWith "Analysis error:" m = true)
    ∧ (analyze_clauses (analyze_with_mistral w) (PyValue.dict [("legal_text", PyValue.str t)])).1
        = 200 := by
  have ht1 : (t == "") = false := by
    by_contra hc
    rw [Bool.not_eq_false] at hc
    rw [beq_iff_eq] at hc
    subst hc
    exact absurd ht2 (by simp [pyStripString, pyStrip])
  have hco : ∃ tn, coerceResult (extract_json reply)
      = Except.error (.typeError ("the JSON object must be str, bytes or bytearray, not " ++ tn)) := by
    cases hv : extract_json reply with
    | dict kvs => rw [hv] at hdict; exact absurd hdict (by simp [PyValue.isDict])
    | str s => rw [hv] at hstr; exact absurd hstr (by simp [PyValue.isStr])
    | none => exact ⟨"NoneType", rfl⟩
    | bool b => exact ⟨"bool", rfl⟩
    | int n => exact ⟨"int", rfl⟩
    | float r => exact ⟨"float", rfl⟩
    | list xs => exact ⟨"list", rfl⟩
    | tuple xs => exact ⟨"tuple", rfl⟩
  obtain ⟨tn, hco⟩ := hco
  have hchain : chainContent (choicesWrap reply) = Except.ok (PyValue.str reply) := rfl
  constructor
  · refine ⟨"Analysis error: " ++ ("the JSON object must be str, bytes or bytearray, not " ++ tn),
      ?_, ?_⟩
    · unfold analyze_with_mistral analyze_with_mistral_body resp_json
      simp only [hkey, Bool.false_eq_true, if_false, hnet, hstatus, hbody, hchain,
        beq_self_eq_true, if_true, extract_json_py, hco]
      rfl
    · exact strStartsWith_analysis _
  · have hkey2 : analyze_clauses (analyze_with_mistral w)
        (PyValue.dict [("legal_text", PyValue.str t)]) = (200, analyze_with_mistral w t) := by
      have hm : requestMissingCheck (PyValue.dict [("legal_text", PyValue.str t)])
          = Except.ok false := by
        unfold requestMissingCheck
        simp [py_falsy, py_contains, dictHasKey, dictLookup]
      unfold analyze_clauses analyze_clauses_body
      rw [hm]
      simp only [py_subscript, dictLookup]
      simp [ht1, ht2]
    rw [hkey2]

/-- Claim C9, witness: the amended theorem at a reply whose literal parse
yields a list. -/
theorem c9_witness :
    (∃ m, analyze_with_mistral (mkWorld "[1, 2]") "hello"
        = PyValue.dict [("error", PyValue.str m), ("good_clausess", PyValue.list []),
                        ("bad_clausess", PyValue.list [])]
       ∧ strStartsWith "Analysis error:" m = true)
    ∧ (analyze_clauses (analyze_with_mistral (mkWorld "[1, 2]"))
        (PyValue.dict [("legal_text", PyValue.str "hello")])).1 = 200 :=
  c9_amended_nondict_nonstr (mkWorld "[1, 2]") "hello" "[1, 2]"
    { status_code := 200, jsonBody := Except.ok (choicesWrap "[1, 2]") }
    rfl rfl rfl rfl rfl rfl rfl

/-- Claim C10.  When the provider answers 200 with a parseable body on which
the chained subscripts `choices`, `0`, `message`, `content` raise (no choices
key, empty choices list, choice without message, and so on), the pipeline
never propagates the exception: it returns a mapping whose `error` starts
with `Analysis error:` and whose clause lists are both empty. -/
theorem c10_malformed_provider_body (w : World) (t : String) (response : HTTPResponse)
    (bodyv : PyValue) (e : PyErr)
    (hkey : apiKeyFalsy w.apiKey = false)
    (hnet : w.net = Except.ok response)
    (hstatus : response.status_code = 200)
    (hbody : response.jsonBody = Except.ok bodyv)
    (hchain : chainContent bodyv = Except.error e) :
    analyze_with_mistral w t
        = PyValue.dict [("error", PyValue.str ("Analysis error: " ++ e.message)),
                        ("good_clausess", PyValue.list []), ("bad_clausess", PyValue.list [])]
      ∧ strStartsWith "Analysis error:" ("Analysis error: " ++ e.message) = true := by
  constructor
  · unfold analyze_with_mistral analyze_with_mistral_body resp_json
    simp only [hkey, Bool.false_eq_true, if_false, hnet, hstatus, hbody, hchain,
      beq_self_eq_true, if_true]
    exact handle_exc_analysis e (chainContent_error_kind bodyv e hchain)
  · exact strStartsWith_analysis e.message

/-- Claim C10, witness: the theorem at a 200 response whose body has no
`choices` key. -/
theorem c10_witness :
    analyze_with_mistral
        { apiKey := Option.some "k",
          net := Except.ok { status_code := 200,
                             jsonBody := Except.ok (PyValue.dict [("x", PyValue.int 1)]) } } "t"
        = PyValue.dict [("error", PyValue.str ("Analysis error: " ++ (PyErr.keyError "choices").message)),
                        ("good_clausess", PyValue.list []), ("bad_clausess", PyValue.list [])]
      ∧ strStartsWith "Analysis error:" ("Analysis error: " ++ (PyErr.keyError "choices").message)
        = true :=
  c10_malformed_provider_body
    { apiKey := Option.some "k",
      net := Except.ok { status_code := 200,
                         jsonBody := Except.ok (PyValue.dict [("x", PyValue.int 1)]) } }
    "t" { status_code := 200, jsonBody := Except.ok (PyValue.dict [("x", PyValue.int 1)]) }
    (PyValue.dict [("x", PyValue.int 1)]) (PyErr.keyError "choices") rfl rfl rfl rfl rfl
